import Mathlib

/-!
Verification development for the `blang` interpreter (a Monkey-style
tree-walking interpreter written in Rust).

The definitions below are a shallow embedding of the Rust sources:

* `src/token.rs`   → `TokenType`, `Token`
* `src/lexer.rs`   → `Lexer`, `Lexer.readChar`, `Lexer.peekChar`,
                     `Lexer.matchChar`, `Lexer.matchAlphabeticSpan`,
                     `Lexer.matchNumericSpan`, `Lexer.nextToken`
* `src/types.rs`   → `Ty`, `Object`
* `src/environment.rs` → `Env`, `envUpdate`, `envGet`
* `src/statements.rs` and `src/program.rs` → `Node`, `Node.toStr`,
                     `isError`, `evalStep`, `updStep`, `blockEvalLoop`,
                     `blockUpdLoop`, `callArgsLoop`, `progLoop`, `evalFns`,
                     `runProgram`
* `src/ast.rs`     → `PrecedenceType`, `precedenceMap`, `PState` and the
                     `Parser` step functions.

Rust `panic!` / `todo!` / `Option::unwrap` on `None` / stack overflow are
all modelled by `Res.panic`; recursion through runtime values (function
calls) is cut off with an explicit fuel parameter, whose exhaustion is also
`Res.panic`.  Machine integers (`i64`) are modelled as unbounded `Int`:
the spec declares overflow behaviour host-defined and out of scope; the
one `i64` partiality the claims depend on, division by zero, is modelled
faithfully as a panic.  Rust `HashMap<String, _>` is modelled as an
association list with insert-or-overwrite update; only `get`/`update`
(key-based, order-independent) are used by the interpreter.
-/

/-- Outcome of running a piece of Rust code that may abort (panic / todo /
failed unwrap) or, in our model, run out of fuel. -/
inductive Res (α : Type) where
  | panic : Res α
  | ok : α → Res α
deriving Repr, DecidableEq

def Res.map {α β : Type} (f : α → β) : Res α → Res β
  | .panic => .panic
  | .ok a => .ok (f a)

/-- Token kinds, from `src/token.rs` (`enum TokenType`). -/
inductive TokenType where
  | ILLEGAL | EOF
  | IDENT | INT
  | ASSIGN | PLUS | MINUS | SLASH | ASTERISK | LT | GT | BANG
  | EQ | NEQ
  | COMMA | SEMICOLON
  | LPAREN | RPAREN | LBRACE | RBRACE
  | FUNCTION | LET | IF | ELSE | RETURN
  | TRUE | FALSE
deriving Repr, DecidableEq

/-- A token, from `src/token.rs` (`struct Token`): a kind plus an optional
literal. -/
structure Token where
  tokenType : TokenType
  literal : Option String
deriving Repr, DecidableEq

/-- Runtime value type tags, from `src/types.rs` (`enum Type`). -/
inductive Ty where
  | INTEGER | BOOLEAN | NULL | ERROR | FUNCTION
deriving Repr, DecidableEq

/-- The `{:?}` (Debug) rendering of a `Type` tag, as used in the error
messages built in `src/statements.rs`. -/
def Ty.debugStr : Ty → String
  | .INTEGER => "INTEGER"
  | .BOOLEAN => "BOOLEAN"
  | .NULL => "NULL"
  | .ERROR => "ERROR"
  | .FUNCTION => "FUNCTION"

/-- AST nodes.  The Rust source uses one `ProgramNode` trait object with a
concrete struct per variant (`src/statements.rs`); the constructors below
are those structs, fields in source order. -/
inductive Node where
  | letStmt (token : Token) (name : Node) (value : Node)
  | returnStmt (token : Token) (value : Node)
  | exprStmt (token : Token) (expression : Node)
  | blockStmt (token : Token) (statements : List Node)
  | identExpr (token : Token) (value : String)
  | intLit (token : Token) (value : Int)
  | boolLit (token : Token) (value : Bool)
  | prefixExpr (token : Token) (operator : String) (right : Node)
  | infixExpr (token : Token) (left : Node) (operator : String) (right : Node)
  | ifExpr (token : Token) (condition : Node) (consequence : Node)
      (alternative : Option Node)
  | fnLit (token : Token) (parameters : List Node) (body : Node)
  | callExpr (token : Token) (function : Node) (arguments : List Node)

/-- `token_literal()` of a node: every variant returns its token's literal. -/
def Node.tokenLiteral : Node → Option String
  | .letStmt t _ _ => t.literal
  | .returnStmt t _ => t.literal
  | .exprStmt t _ => t.literal
  | .blockStmt t _ => t.literal
  | .identExpr t _ => t.literal
  | .intLit t _ => t.literal
  | .boolLit t _ => t.literal
  | .prefixExpr t _ _ => t.literal
  | .infixExpr t _ _ _ => t.literal
  | .ifExpr t _ _ _ => t.literal
  | .fnLit t _ _ => t.literal
  | .callExpr t _ _ => t.literal

/-- `token_literal().unwrap()` as used inside `to_string`; the source
panics when the literal is absent, which no parser-produced node has, so we
use the empty string there. -/
def Token.litD (t : Token) : String := t.literal.getD ("")

mutual

/-- `to_string()` of a node, `src/statements.rs` (identical `to_string`
implementations also appear in `src/ast.rs`). -/
def Node.toStr : Node → String
  | .letStmt t name value =>
      t.litD ++ " " ++ name.toStr ++ " = " ++ value.toStr
  | .returnStmt t value => t.litD ++ " " ++ value.toStr ++ ";"
  | .exprStmt _ e => e.toStr
  | .blockStmt _ statements =>
      String.intercalate (" ") ((Node.toStrList statements).map (fun s => s ++ ";"))
  | .identExpr _ v => v
  | .intLit _ v => toString v
  | .boolLit _ v => toString v
  | .prefixExpr _ operator right => "(" ++ operator ++ right.toStr ++ ")"
  | .infixExpr _ left operator right =>
      "(" ++ left.toStr ++ " " ++ operator ++ " " ++ right.toStr ++ ")"
  | .ifExpr _ condition consequence alternative =>
      match alternative with
      | some alt =>
          "if " ++ condition.toStr ++ " " ++ consequence.toStr ++ " else " ++ alt.toStr
      | none => "if " ++ condition.toStr ++ " " ++ consequence.toStr
  | .fnLit _ parameters body =>
      "fn(" ++ String.intercalate (", ") (Node.toStrList parameters) ++ ") \x7b "
        ++ body.toStr ++ " \x7d"
  | .callExpr _ function arguments =>
      function.toStr ++ "(" ++ String.intercalate (", ") (Node.toStrList arguments) ++ ")"

/-- `to_string()` mapped over a list of child nodes. -/
def Node.toStrList : List Node → List String
  | [] => []
  | n :: ns => n.toStr :: Node.toStrList ns

end

/-- Runtime values, from `src/types.rs`: `Integer`, `Boolean`, `Null`,
`Error` and `Function` (the latter stores parameter nodes, a body node and
a captured environment, all deep-copied — in this pure model a copy is the
value itself). -/
inductive Object where
  | integer (value : Int)
  | boolean (value : Bool)
  | null
  | error (message : String)
  | function (parameters : List Node) (body : Node) (env : List (String × Object))

/-- `type_()` of a value. -/
def Object.typeTag : Object → Ty
  | .integer _ => .INTEGER
  | .boolean _ => .BOOLEAN
  | .null => .NULL
  | .error _ => .ERROR
  | .function _ _ _ => .FUNCTION

/-- The session environment, `src/environment.rs`: a map from names to
values, modelled as an association list with unique keys. -/
abbrev Env := List (String × Object)

/-- `Environment::update` — insert or overwrite. -/
def envUpdate : Env → String → Object → Env
  | [], k, v => [(k, v)]
  | (k', v') :: rest, k, v =>
      if k' == k then (k, v) :: rest else (k', v') :: envUpdate rest k v

/-- `Environment::get` — the stored value, or an `unknown identifier`
error object when the key is absent. -/
def envGet : Env → String → Object
  | [], k => .error ("unknown identifier: " ++ k)
  | (k', v') :: rest, k => if k' == k then v' else envGet rest k

/-- `is_error` from `src/statements.rs`: an `Option` result holds an
`Error` object. -/
def isError : Option Object → Bool
  | some o => o.typeTag == .ERROR
  | none => false

/-- The two recursive entry points of the evaluator, abstracted so that the
per-node step functions below can be tied by fuel: `eval` is
`ProgramNode::eval`, `upd` is `ProgramNode::update_env`.  Both thread the
(mutably borrowed) environment. -/
structure EvalFns where
  eval : Node → Env → Res (Option Object × Env)
  upd : Node → Env → Res (Option (List (String × Object)) × Env)

/-- Applying a batch of `update_env` results to the environment (the
`for update in unwrapped { env.update(...) }` loops in `src/program.rs`
and `BlockStatement::eval`). -/
def applyUpdates (env : Env) : Option (List (String × Object)) → Env
  | none => env
  | some us => us.foldl (fun e kv => envUpdate e kv.1 kv.2) env

/-- The statement loop of `BlockStatement::eval` (`src/statements.rs`):
evaluate each statement; a statement whose token literal is `return`
returns its result at once; an `Error` result is returned at once; missing
token literals panic (`unwrap`); otherwise the statement's `update_env`
result is applied to the environment and the loop continues.  The second
argument carries the running `result` variable (`None` initially). -/
def blockEvalLoop (fns : EvalFns) : List Node → Option Object → Env →
    Res (Option Object × Env)
  | [], result, env => .ok (result, env)
  | st :: rest, _, env =>
      match fns.eval st env with
      | .panic => .panic
      | .ok (result, env) =>
          match st.tokenLiteral with
          | none => .panic
          | some lit =>
              if lit == "return" then .ok (result, env)
              else if isError result then .ok (result, env)
              else
                match fns.upd st env with
                | .panic => .panic
                | .ok (updates, env) =>
                    blockEvalLoop fns rest result (applyUpdates env updates)

/-- The statement loop of `BlockStatement::update_env`: like
`blockEvalLoop` but accumulating the updates it applied; on a `return` or
`Error` statement it stops and reports the updates made so far. -/
def blockUpdLoop (fns : EvalFns) : List Node → List (String × Object) → Env →
    Res (Option (List (String × Object)) × Env)
  | [], acc, env => .ok (some acc, env)
  | st :: rest, acc, env =>
      match fns.eval st env with
      | .panic => .panic
      | .ok (result, env) =>
          match st.tokenLiteral with
          | none => .panic
          | some lit =>
              if lit == "return" then .ok (some acc, env)
              else if isError result then .ok (some acc, env)
              else
                match fns.upd st env with
                | .panic => .panic
                | .ok (updates, env) =>
                    match updates with
                    | none => blockUpdLoop fns rest acc env
                    | some us =>
                        blockUpdLoop fns rest (acc ++ us)
                          (applyUpdates env (some us))

/-- The argument-binding loop of `CallExpression::eval`
(`src/statements.rs`, lines 718–721): evaluate each argument in the scoped
environment (`unwrap` panics on a `None` result — note: an `Error` result
is NOT detected here, it is bound like any value) and bind it to the
positionally matching parameter's token literal (indexing panics when the
arguments outnumber the parameters, and `unwrap` panics on a literal-less
parameter token). -/
def callArgsLoop (fns : EvalFns) : List Node → List Node → Env → Res Env
  | [], _, env => .ok env
  | arg :: args, params, env =>
      match fns.eval arg env with
      | .panic => .panic
      | .ok (r, env) =>
          match r with
          | none => .panic
          | some v =>
              match params with
              | [] => .panic
              | p :: ps =>
                  match p.tokenLiteral with
                  | none => .panic
                  | some name => callArgsLoop fns args ps (envUpdate env name v)

/-- One level of `ProgramNode::eval` (`src/statements.rs`), with all
recursive evaluation delegated to `fns`. -/
def evalStep (fns : EvalFns) (node : Node) (env : Env) :
    Res (Option Object × Env) :=
  match node with
  | .letStmt _ _ _ => .ok (none, env)
  | .returnStmt _ value => fns.eval value env
  | .exprStmt _ e => fns.eval e env
  | .blockStmt _ statements => blockEvalLoop fns statements none env
  | .identExpr _ v => .ok (some (envGet env v), env)
  | .intLit _ v => .ok (some (.integer v), env)
  | .boolLit _ v => .ok (some (.boolean v), env)
  | .prefixExpr _ operator right =>
      match fns.eval right env with
      | .panic => .panic
      | .ok (rightEval, env) =>
          match rightEval with
          | none => .panic
          | some rightResult =>
              if rightResult.typeTag == .ERROR then .ok (some rightResult, env)
              else
                match operator with
                | "!" =>
                    match rightResult with
                    | .boolean b => .ok (some (.boolean (!b)), env)
                    | .null => .ok (some (.boolean false), env)
                    | _ => .ok (some (.boolean false), env)
                | "-" =>
                    match rightResult with
                    | .integer n => .ok (some (.integer (-n)), env)
                    | _ =>
                        .ok (some (.error
                          ("invalid type: -" ++ rightResult.typeTag.debugStr)), env)
                | _ =>
                    .ok (some (.error
                      ("unknown operator: \"" ++ operator ++ "\"")), env)
  | .infixExpr _ left operator right =>
      match fns.eval left env with
      | .panic => .panic
      | .ok (leftEval, env) =>
          if isError leftEval then .ok (leftEval, env)
          else
            match leftEval with
            | none => .panic
            | some leftResult =>
                match fns.eval right env with
                | .panic => .panic
                | .ok (rightEval, env) =>
                    if isError rightEval then .ok (rightEval, env)
                    else
                      match rightEval with
                      | none => .panic
                      | some rightResult =>
                          match leftResult, rightResult with
                          | .integer a, .integer b =>
                              match operator with
                              | "-" => .ok (some (.integer (a - b)), env)
                              | "+" => .ok (some (.integer (a + b)), env)
                              | "/" =>
                                  if b == 0 then .panic
                                  else .ok (some (.integer (Int.tdiv a b)), env)
                              | "*" => .ok (some (.integer (a * b)), env)
                              | ">" => .ok (some (.boolean (decide (a > b))), env)
                              | "<" => .ok (some (.boolean (decide (a < b))), env)
                              | "==" => .ok (some (.boolean (a == b)), env)
                              | "!=" => .ok (some (.boolean (a != b)), env)
                              | _ => .ok (none, env)
                          | .boolean p, .boolean q =>
                              match operator with
                              | "==" => .ok (some (.boolean (p == q)), env)
                              | "!=" => .ok (some (.boolean (p != q)), env)
                              | _ => .ok (none, env)
                          | _, _ =>
                              .ok (some (.error
                                ("type mismatch: " ++ leftResult.typeTag.debugStr
                                  ++ " " ++ operator ++ " "
                                  ++ rightResult.typeTag.debugStr)), env)
  | .ifExpr _ condition consequence alternative =>
      match fns.eval condition env with
      | .panic => .panic
      | .ok (conditionResult, env) =>
          if isError conditionResult then .ok (conditionResult, env)
          else
            let useFirst : Bool :=
              match conditionResult with
              | some v =>
                  match v with
                  | .boolean b => b
                  | _ => true
              | none => false
            if useFirst then fns.eval consequence env
            else
              match alternative with
              | some alt => fns.eval alt env
              | none => .ok (none, env)
  | .fnLit _ parameters body => .ok (some (.function parameters body env), env)
  | .callExpr _ function arguments =>
      -- scoped_env starts as a deep copy of the caller's env; the caller's
      -- own environment is never written and is returned unchanged.
      match fns.eval function env with
      | .panic => .panic
      | .ok (ogFn, scopedEnv) =>
          match ogFn with
          | none => .panic
          | some ogFnObj =>
              match ogFnObj with
              | .function ogParams _ _ =>
                  match callArgsLoop fns arguments ogParams scopedEnv with
                  | .panic => .panic
                  | .ok scopedEnv =>
                      match fns.eval function scopedEnv with
                      | .panic => .panic
                      | .ok (unwrapped, scopedEnv) =>
                          match unwrapped with
                          | none => .panic
                          | some fnObj =>
                              match fnObj with
                              | .function _ body _ =>
                                  -- the body runs in scoped_env (the
                                  -- caller-env copy with arguments bound);
                                  -- the function's stored env is unused.
                                  match fns.eval body scopedEnv with
                                  | .panic => .panic
                                  | .ok (result, _) => .ok (result, env)
                              | _ => .panic
              | _ => .panic

/-- One level of `ProgramNode::update_env` (`src/statements.rs`).  Note
`FunctionLiteralExpression::update_env` is `todo!()`, i.e. a panic. -/
def updStep (fns : EvalFns) (node : Node) (env : Env) :
    Res (Option (List (String × Object)) × Env) :=
  match node with
  | .letStmt _ name value =>
      match fns.eval value env with
      | .panic => .panic
      | .ok (result, env) =>
          match result with
          | some v => .ok (some [(name.toStr, v)], env)
          | none => .ok (none, env)
  | .returnStmt _ _ => .ok (none, env)
  | .exprStmt _ e => fns.upd e env
  | .blockStmt _ statements => blockUpdLoop fns statements [] env
  | .identExpr _ _ => .ok (none, env)
  | .intLit _ _ => .ok (none, env)
  | .boolLit _ _ => .ok (none, env)
  | .prefixExpr _ _ _ => .ok (none, env)
  | .infixExpr _ _ _ _ => .ok (none, env)
  | .ifExpr _ _ _ _ => .ok (none, env)
  | .fnLit _ _ _ => .panic
  | .callExpr _ _ _ => .ok (none, env)

/-- The evaluator at a given fuel level: every recursive call costs one
unit; exhausted fuel is a panic (modelling nontermination / stack
overflow, which is reachable, e.g. through self-application). -/
def evalFns : Nat → EvalFns
  | 0 => ⟨fun _ _ => .panic, fun _ _ => .panic⟩
  | n + 1 =>
      ⟨fun node env => evalStep (evalFns n) node env,
       fun node env => updStep (evalFns n) node env⟩

/-- The statement loop of `Program::eval` (`src/program.rs`, lines 39–62):
identical control flow to `blockEvalLoop` (evaluate; return on a `return`
literal; return on an `Error`; otherwise apply `update_env` and continue),
with the carried `result` starting as `None`. -/
def progLoop (fns : EvalFns) : List Node → Option Object → Env →
    Res (Option Object × Env)
  | [], result, env => .ok (result, env)
  | st :: rest, _, env =>
      match fns.eval st env with
      | .panic => .panic
      | .ok (result, env) =>
          match st.tokenLiteral with
          | none => .panic
          | some lit =>
              if lit == "return" then .ok (result, env)
              else if isError result then .ok (result, env)
              else
                match fns.upd st env with
                | .panic => .panic
                | .ok (updates, env) =>
                    progLoop fns rest result (applyUpdates env updates)

/-- `Program::eval` on a statement list, starting from a given session
environment, with the given fuel for the per-node evaluator. -/
def runProgram (fuel : Nat) (statements : List Node) (env : Env) :
    Res (Option Object × Env) :=
  progLoop (evalFns fuel) statements none env

/-! ### Concrete tokens and programs used by the claims

The tokens attached to the nodes below are the ones the parser would
attach (statement tokens matter: the program and block loops dispatch on
the statement's token literal, and `parse_expression_statement` stores the
*last* token of the expression). -/

def letTok : Token := ⟨.LET, some ("let")⟩
def returnTok : Token := ⟨.RETURN, some ("return")⟩
def fnTok : Token := ⟨.FUNCTION, some ("fn")⟩
def ifTok : Token := ⟨.IF, some ("if")⟩
def lbraceTok : Token := ⟨.LBRACE, some ("\x7b")⟩
def rbraceTok : Token := ⟨.RBRACE, some ("\x7d")⟩
def lparenTok : Token := ⟨.LPAREN, some ("(")⟩
def rparenTok : Token := ⟨.RPAREN, some (")")⟩
def trueTok : Token := ⟨.TRUE, some ("true")⟩
def identTok (s : String) : Token := ⟨.IDENT, some s⟩
def intTok (n : Int) : Token := ⟨.INT, some (toString n)⟩

/-- `let x = v1; let f = fn(){ x }; let x = v2; f()` as the parser builds
it (claim C1's program generalised over the two integer literals). -/
def progC1gen (v1 v2 : Int) : List Node :=
  [ Node.letStmt letTok (Node.identExpr (identTok ("x")) ("x"))
      (Node.intLit (intTok v1) v1)
  , Node.letStmt letTok (Node.identExpr (identTok ("f")) ("f"))
      (Node.fnLit fnTok []
        (Node.blockStmt lbraceTok
          [Node.exprStmt (identTok ("x")) (Node.identExpr (identTok ("x")) ("x"))]))
  , Node.letStmt letTok (Node.identExpr (identTok ("x")) ("x"))
      (Node.intLit (intTok v2) v2)
  , Node.exprStmt rparenTok
      (Node.callExpr lparenTok (Node.identExpr (identTok ("f")) ("f")) [])
  ]

/-- `let x = 1; let f = fn(){ x }; let x = 2; f()` (claim C1's program). -/
def progC1 : List Node := progC1gen 1 2

/-- The error-producing subexpression `foobar` (unbound identifier). -/
def exprFoobar : Node := Node.identExpr (identTok ("foobar")) ("foobar")

/-- `fn(x){ 5; }(foobar)` — a call whose argument is the error-producing
subexpression `foobar` (claim C2). -/
def exprC2container : Node :=
  Node.callExpr lparenTok
    (Node.fnLit fnTok [Node.identExpr (identTok ("x")) ("x")]
      (Node.blockStmt lbraceTok
        [Node.exprStmt (intTok 5) (Node.intLit (intTok 5) 5)]))
    [exprFoobar]

/-- `if (true) { let y = 1; foobar; }` as a single top-level statement
(claim C3). -/
def progC3 : List Node :=
  [ Node.exprStmt rbraceTok
      (Node.ifExpr ifTok (Node.boolLit trueTok true)
        (Node.blockStmt lbraceTok
          [ Node.letStmt letTok (Node.identExpr (identTok ("y")) ("y"))
              (Node.intLit (intTok 1) 1)
          , Node.exprStmt (identTok ("foobar")) exprFoobar
          ])
        none)
  ]

/-- `5; return 10; 15;` (claim C6, spec scenario 6). -/
def progC6 : List Node :=
  [ Node.exprStmt (intTok 5) (Node.intLit (intTok 5) 5)
  , Node.returnStmt returnTok (Node.intLit (intTok 10) 10)
  , Node.exprStmt (intTok 15) (Node.intLit (intTok 15) 15)
  ]

/-- `foobar; return 10;` — a program whose first top-level `return` is
preceded by an error-producing statement (claim C6). -/
def progC6bad : List Node :=
  [ Node.exprStmt (identTok ("foobar")) exprFoobar
  , Node.returnStmt returnTok (Node.intLit (intTok 10) 10)
  ]

/-- `return 1; fn(){};` — a program that contains a bare function-literal
expression statement but returns before reaching it (claim C9). -/
def progC9bad : List Node :=
  [ Node.returnStmt returnTok (Node.intLit (intTok 1) 1)
  , Node.exprStmt rbraceTok (Node.fnLit fnTok [] (Node.blockStmt lbraceTok []))
  ]

/-- The value of the `"!"` arm of `PrefixExpression::eval` on a non-error
operand: negate a `BOOLEAN`, `false` for `NULL`, `false` for anything
else. -/
def bangValue : Object → Bool
  | .boolean b => !b
  | _ => false

/-- A run of top-level statements that the `Program::eval` loop passes
through without stopping: each has a token literal other than `return`,
evaluates without panic to a non-`Error` result, and has its `update_env`
result applied.  Relates the environment before the run to the one
after. -/
inductive CleanSteps (fns : EvalFns) : List Node → Env → Env → Prop where
  | nil (env : Env) : CleanSteps fns [] env env
  | cons (s : Node) (rest : List Node) (env env' env'' envF : Env)
      (lit : String) (r : Option Object) (u : Option (List (String × Object)))
      (hlit : s.tokenLiteral = some lit) (hret : lit ≠ "return")
      (hev : fns.eval s env = .ok (r, env')) (herr : isError r = false)
      (hupd : fns.upd s env' = .ok (u, env''))
      (htail : CleanSteps fns rest (applyUpdates env'' u) envF) :
      CleanSteps fns (s :: rest) env envF

/-! ### The shapes of the error messages the evaluator can build

Every `Error` object constructed anywhere in `src/statements.rs` /
`src/environment.rs` has a message in one of exactly four families; this
is what makes "no `division by zero` error is ever returned" (claim C10)
provable. -/

/-- The four error-message families of the evaluator. -/
def MsgOk (m : String) : Prop :=
  (∃ s, m = "type mismatch: " ++ s) ∨
  (∃ s, m = "invalid type: -" ++ s) ∨
  (∃ s, m = "unknown operator: " ++ s) ∨
  (∃ s, m = "unknown identifier: " ++ s)

/-- An object is well-formed when, if it is an `Error`, its message is in
one of the four families. -/
def GoodObj : Object → Prop
  | .error m => MsgOk m
  | _ => True

def GoodEnv (env : Env) : Prop := ∀ kv ∈ env, GoodObj kv.2

def GoodRes : Option Object → Prop
  | some o => GoodObj o
  | none => True

def GoodUpdates : Option (List (String × Object)) → Prop
  | none => True
  | some us => ∀ kv ∈ us, GoodObj kv.2

def GoodEvalRes : Res (Option Object × Env) → Prop
  | .panic => True
  | .ok (r, env) => GoodRes r ∧ GoodEnv env

def GoodUpdRes : Res (Option (List (String × Object)) × Env) → Prop
  | .panic => True
  | .ok (u, env) => GoodUpdates u ∧ GoodEnv env

/-- Both evaluator entry points preserve well-formedness of results and
environments. -/
def GoodFns (fns : EvalFns) : Prop :=
  (∀ node env, GoodEnv env → GoodEvalRes (fns.eval node env)) ∧
  (∀ node env, GoodEnv env → GoodUpdRes (fns.upd node env))

/-! ### The lexer, `src/lexer.rs`

State and cursor behaviour are modelled field for field; the `while`
loops inside the span matchers and the whitespace-skipping recursion of
`next_token` take fuel (they can only fail to terminate through fuel in
our model; `ch.unwrap()` panics inside the span loop conditions are
modelled faithfully).  Rust's Unicode `char::is_alphabetic` /
`is_numeric` / `is_whitespace` coincide with `Char.isAlpha` /
`Char.isDigit` / `Char.isWhitespace` on the ASCII inputs this language
admits. -/

structure Lexer where
  input : List Char
  position : Nat
  readPosition : Nat
  ch : Option Char
deriving Repr, DecidableEq

/-- `Lexer::new`: note `ch` starts as a space, so the first `next_token`
trips the whitespace recursion only after the first `read_char`. -/
def Lexer.new (input : String) : Lexer := ⟨input.data, 0, 0, some (' ')⟩

/-- `Lexer::read_char`. -/
def Lexer.readChar (l : Lexer) : Lexer :=
  { l with ch := l.input[l.readPosition]?, position := l.readPosition,
           readPosition := l.readPosition + 1 }

/-- `Lexer::peek_char`. -/
def Lexer.peekChar (l : Lexer) : Option Char := l.input[l.readPosition]?

/-- `Lexer::match_char`: single- or two-character operator match; `=` and
`!` look ahead one character (consuming it via `read_char` only in the
two-character case). -/
def Lexer.matchChar (l : Lexer) : Option Token × Lexer :=
  match l.ch with
  | some ('=') =>
      match l.peekChar with
      | none => (some ⟨.ASSIGN, some ("=")⟩, l)
      | some c =>
          if c == ('=') then (some ⟨.EQ, some ("==")⟩, l.readChar)
          else (some ⟨.ASSIGN, some ("=")⟩, l)
  | some ('!') =>
      match l.peekChar with
      | none => (some ⟨.BANG, some ("!")⟩, l)
      | some c =>
          if c == ('=') then (some ⟨.NEQ, some ("!=")⟩, l.readChar)
          else (some ⟨.BANG, some ("!")⟩, l)
  | some ('+') => (some ⟨.PLUS, some ("+")⟩, l)
  | some ('/') => (some ⟨.SLASH, some ("/")⟩, l)
  | some ('*') => (some ⟨.ASTERISK, some ("*")⟩, l)
  | some ('-') => (some ⟨.MINUS, some ("-")⟩, l)
  | some ('>') => (some ⟨.GT, some (">")⟩, l)
  | some ('<') => (some ⟨.LT, some ("<")⟩, l)
  | some ('(') => (some ⟨.LPAREN, some ("(")⟩, l)
  | some (')') => (some ⟨.RPAREN, some (")")⟩, l)
  | some ('\x7b') => (some ⟨.LBRACE, some ("\x7b")⟩, l)
  | some ('\x7d') => (some ⟨.RBRACE, some ("\x7d")⟩, l)
  | some (',') => (some ⟨.COMMA, some (",")⟩, l)
  | some (';') => (some ⟨.SEMICOLON, some (";")⟩, l)
  | _ => (none, l)

/-- The `while` loop of `match_alphabetic_span`; the loop condition
unwraps `ch`, so running off the end of the input panics. -/
def Lexer.alphaSpanLoop : Nat → Lexer → List Char → Res (Lexer × List Char)
  | 0, _, _ => .panic
  | fuel + 1, l, acc =>
      match l.ch with
      | none => .panic
      | some c =>
          if c.isAlpha && !c.isWhitespace then
            Lexer.alphaSpanLoop fuel l.readChar (acc ++ [c])
          else .ok (l, acc)

/-- `Lexer::match_alphabetic_span`: greedy keyword/identifier match,
backing the cursors up one position on success. -/
def Lexer.matchAlphabeticSpan (fuel : Nat) (l : Lexer) :
    Res (Option Token × Lexer) :=
  match l.ch with
  | none => .ok (none, l)
  | some _ =>
      match Lexer.alphaSpanLoop fuel l [] with
      | .panic => .panic
      | .ok (l, chars) =>
          let identString : String := String.mk chars
          if identString.length == 0 then .ok (none, l)
          else
            let token : Token :=
              if identString == "let" then ⟨.LET, some ("let")⟩
              else if identString == "fn" then ⟨.FUNCTION, some ("fn")⟩
              else if identString == "if" then ⟨.IF, some ("if")⟩
              else if identString == "else" then ⟨.ELSE, some ("else")⟩
              else if identString == "return" then ⟨.RETURN, some ("return")⟩
              else if identString == "true" then ⟨.TRUE, some ("true")⟩
              else if identString == "false" then ⟨.FALSE, some ("false")⟩
              else ⟨.IDENT, some identString⟩
            .ok (some token,
              { l with readPosition := l.readPosition - 1,
                       position := l.position - 1 })

/-- The `while` loop of `match_numeric_span`. -/
def Lexer.numericSpanLoop : Nat → Lexer → List Char → Res (Lexer × List Char)
  | 0, _, _ => .panic
  | fuel + 1, l, acc =>
      match l.ch with
      | none => .panic
      | some c =>
          if c.isDigit then Lexer.numericSpanLoop fuel l.readChar (acc ++ [c])
          else .ok (l, acc)

/-- `Lexer::match_numeric_span`. -/
def Lexer.matchNumericSpan (fuel : Nat) (l : Lexer) :
    Res (Option Token × Lexer) :=
  match l.ch with
  | none => .ok (none, l)
  | some _ =>
      match Lexer.numericSpanLoop fuel l [] with
      | .panic => .panic
      | .ok (l, chars) =>
          let numericString : String := String.mk chars
          if numericString.length == 0 then .ok (none, l)
          else
            .ok (some ⟨.INT, some numericString⟩,
              { l with readPosition := l.readPosition - 1,
                       position := l.position - 1 })

/-- `Lexer::next_token`: advance a character; end of input is `EOF`;
whitespace recurses; then the operator, alphabetic and numeric matchers in
order, with `ILLEGAL` as fallback. -/
def Lexer.nextToken : Nat → Lexer → Res (Token × Lexer)
  | 0, _ => .panic
  | fuel + 1, l =>
      let l := l.readChar
      match l.ch with
      | none => .ok (⟨.EOF, none⟩, l)
      | some c =>
          if c.isWhitespace then Lexer.nextToken fuel l
          else
            match l.matchChar with
            | (some t, l) => .ok (t, l)
            | (none, l) =>
                match Lexer.matchAlphabeticSpan fuel l with
                | .panic => .panic
                | .ok (some t, l) => .ok (t, l)
                | .ok (none, l) =>
                    match Lexer.matchNumericSpan fuel l with
                    | .panic => .panic
                    | .ok (some t, l) => .ok (t, l)
                    | .ok (none, l) => .ok (⟨.ILLEGAL, none⟩, l)

/-- Run the lexer to completion, collecting tokens up to and including the
final `EOF`. -/
def lexTokens : Nat → Lexer → Res (List Token)
  | 0, _ => .panic
  | fuel + 1, l =>
      match Lexer.nextToken (fuel + 1) l with
      | .panic => .panic
      | .ok (t, l') =>
          if t.tokenType == .EOF then .ok [t]
          else
            match lexTokens fuel l' with
            | .panic => .panic
            | .ok ts => .ok (t :: ts)

/-! ### The Pratt parser, `src/ast.rs`

The parser holds a lexer and prefetches two tokens; we model the token
source as the list of tokens still to come (the real lexer yields `EOF`
tokens forever once exhausted, which `popToken` reproduces).  Every
`panic!` branch of the source is `Res.panic`; `expect_peek` accumulates
its (argument-swapped, as in the source) diagnostic before the caller
panics.  Recursion is tied through a fuel-indexed structure of functions
`parserFns`, one level per recursive call. -/

/-- Parser precedence levels, `enum PrecedenceType` (`PREF` is the
source's `PREFIX`). -/
inductive PrecedenceType where
  | LOWEST | EQUALS | LESSGREATER | SUM | PRODUCT | PREF | CALL
deriving Repr, DecidableEq

/-- The enum discriminants 0–6, used for the `PartialOrd` comparison in
the Pratt loop. -/
def PrecedenceType.toNat : PrecedenceType → Nat
  | .LOWEST => 0
  | .EQUALS => 1
  | .LESSGREATER => 2
  | .SUM => 3
  | .PRODUCT => 4
  | .PREF => 5
  | .CALL => 6

/-- `PRECEDENCE_MAP`: the token kinds carrying an infix precedence. -/
def precedenceMap : TokenType → Option PrecedenceType
  | .EQ => some .EQUALS
  | .NEQ => some .EQUALS
  | .LT => some .LESSGREATER
  | .GT => some .LESSGREATER
  | .PLUS => some .SUM
  | .MINUS => some .SUM
  | .SLASH => some .PRODUCT
  | .ASTERISK => some .PRODUCT
  | .LPAREN => some .CALL
  | _ => none

/-- The `{:?}` rendering of a token kind (used only in `expect_peek`'s
diagnostic strings). -/
def TokenType.debugStr : TokenType → String
  | .ILLEGAL => "ILLEGAL"
  | .EOF => "EOF"
  | .IDENT => "IDENT"
  | .INT => "INT"
  | .ASSIGN => "ASSIGN"
  | .PLUS => "PLUS"
  | .MINUS => "MINUS"
  | .SLASH => "SLASH"
  | .ASTERISK => "ASTERISK"
  | .LT => "LT"
  | .GT => "GT"
  | .BANG => "BANG"
  | .EQ => "EQ"
  | .NEQ => "NEQ"
  | .COMMA => "COMMA"
  | .SEMICOLON => "SEMICOLON"
  | .LPAREN => "LPAREN"
  | .RPAREN => "RPAREN"
  | .LBRACE => "LBRACE"
  | .RBRACE => "RBRACE"
  | .FUNCTION => "FUNCTION"
  | .LET => "LET"
  | .IF => "IF"
  | .ELSE => "ELSE"
  | .RETURN => "RETURN"
  | .TRUE => "TRUE"
  | .FALSE => "FALSE"

/-- Parser state: the remaining token stream plus the two prefetched
tokens and accumulated diagnostics. -/
structure PState where
  tokens : List Token
  currentToken : Token
  peekToken : Token
  errors : List String
deriving Repr, DecidableEq

/-- Pull the next token from the stream; an exhausted lexer keeps
producing `EOF`. -/
def popToken : List Token → Token × List Token
  | [] => (⟨.EOF, none⟩, [])
  | t :: ts => (t, ts)

/-- `Parser::next_token`. -/
def PState.nextTok (st : PState) : PState :=
  let (t, ts) := popToken st.tokens
  { st with currentToken := st.peekToken, peekToken := t, tokens := ts }

/-- `Parser::new`: prefetch `current_token` and `peek_token`. -/
def initParser (ts : List Token) : PState :=
  let (c, ts) := popToken ts
  let (p, ts) := popToken ts
  ⟨ts, c, p, []⟩

def PState.currentTokenIs (st : PState) (tt : TokenType) : Bool :=
  st.currentToken.tokenType == tt

def PState.peekTokenIs (st : PState) (tt : TokenType) : Bool :=
  st.peekToken.tokenType == tt

/-- `Parser::expect_peek`: advance on a match; otherwise record the
diagnostic (whose two arguments the source formats in swapped order) and
report failure. -/
def PState.expectPeek (st : PState) (tt : TokenType) : Bool × PState :=
  if st.peekTokenIs tt then (true, st.nextTok)
  else
    (false,
      { st with errors := st.errors ++
          ["Expected next token to be " ++ st.peekToken.tokenType.debugStr
            ++ ", got " ++ tt.debugStr ++ " instead"] })

/-- `Parser::peek_precedence`: the map entry, or `LOWEST` when absent. -/
def PState.peekPrecedence (st : PState) : PrecedenceType :=
  (precedenceMap st.peekToken.tokenType).getD .LOWEST

/-- The recursive entry points of the parser, tied by fuel below: the
statement/expression/block parsers and the four `while` loops
(the Pratt loop, the block-statement loop, the parameter and argument
comma loops and the top-level `parse` loop). -/
structure ParserFns where
  parseStatement : PState → Res (Node × PState)
  parseExpression : PrecedenceType → PState → Res (Node × PState)
  parseBlockStatement : PState → Res (Node × PState)
  prattLoop : Node → PrecedenceType → PState → Res (Node × PState)
  blockLoop : List Node → PState → Res (List Node × PState)
  paramsLoop : List Node → PState → Res (List Node × PState)
  argsLoop : List Node → PState → Res (List Node × PState)
  parseLoop : List Node → PState → Res (List Node × PState)

/-- `Parser::parse_integer_expression` (`parse::<i64>().unwrap()` panics
on a malformed literal, and `unwrap` on a missing one). -/
def parseIntegerExpression (st : PState) : Res (Node × PState) :=
  match st.currentToken.literal with
  | none => .panic
  | some s =>
      match s.toInt? with
      | none => .panic
      | some v => .ok (Node.intLit st.currentToken v, st)

/-- `Parser::parse_identifier_expression`. -/
def parseIdentifierExpression (st : PState) : Res (Node × PState) :=
  match st.currentToken.literal with
  | none => .panic
  | some s => .ok (Node.identExpr st.currentToken s, st)

/-- `Parser::parse_boolean_expression` (`parse::<bool>().unwrap()`). -/
def parseBooleanExpression (st : PState) : Res (Node × PState) :=
  match st.currentToken.literal with
  | none => .panic
  | some s =>
      if s == "true" then .ok (Node.boolLit st.currentToken true, st)
      else if s == "false" then .ok (Node.boolLit st.currentToken false, st)
      else .panic

/-- `Parser::parse_prefix_expression`: keep the operator token, advance,
parse the operand at `PREFIX` precedence. -/
def parsePrefixExpression (fns : ParserFns) (st : PState) :
    Res (Node × PState) :=
  let ogToken := st.currentToken
  let st := st.nextTok
  match ogToken.literal with
  | none => .panic
  | some op =>
      match fns.parseExpression .PREF st with
      | .panic => .panic
      | .ok (right, st) => .ok (Node.prefixExpr ogToken op right, st)

/-- `Parser::parse_infix_expression`: record the operator's own
precedence from `PRECEDENCE_MAP` (indexing panics on an absent key),
advance, and parse the right operand at that same precedence
(left-associativity). -/
def parseInfixExpression (fns : ParserFns) (left : Node) (st : PState) :
    Res (Node × PState) :=
  let ogToken := st.currentToken
  match precedenceMap ogToken.tokenType with
  | none => .panic
  | some precedence =>
      let st := st.nextTok
      match ogToken.literal with
      | none => .panic
      | some op =>
          match fns.parseExpression precedence st with
          | .panic => .panic
          | .ok (right, st) => .ok (Node.infixExpr ogToken left op right, st)

/-- `Parser::parse_grouped_expression`. -/
def parseGroupedExpression (fns : ParserFns) (st : PState) :
    Res (Node × PState) :=
  let st := st.nextTok
  match fns.parseExpression .LOWEST st with
  | .panic => .panic
  | .ok (e, st) =>
      match st.expectPeek .RPAREN with
      | (true, st) => .ok (e, st)
      | (false, _) => .panic

/-- `Parser::parse_if_expression`. -/
def parseIfExpression (fns : ParserFns) (st : PState) :
    Res (Node × PState) :=
  let ogToken := st.currentToken
  match st.expectPeek .LPAREN with
  | (false, _) => .panic
  | (true, st) =>
      let st := st.nextTok
      match fns.parseExpression .LOWEST st with
      | .panic => .panic
      | .ok (condition, st) =>
          match st.expectPeek .RPAREN with
          | (false, _) => .panic
          | (true, st) =>
              match st.expectPeek .LBRACE with
              | (false, _) => .panic
              | (true, st) =>
                  match fns.parseBlockStatement st with
                  | .panic => .panic
                  | .ok (consequence, st) =>
                      if st.peekTokenIs .ELSE then
                        let st := st.nextTok
                        match st.expectPeek .LBRACE with
                        | (false, _) => .panic
                        | (true, st) =>
                            match fns.parseBlockStatement st with
                            | .panic => .panic
                            | .ok (alt, st) =>
                                .ok (Node.ifExpr ogToken condition consequence
                                  (some alt), st)
                      else
                        .ok (Node.ifExpr ogToken condition consequence none, st)

/-- The comma loop of `Parser::parse_function_parameters`. -/
def paramsLoopStep (fns : ParserFns) (identifiers : List Node)
    (st : PState) : Res (List Node × PState) :=
  if st.peekTokenIs .COMMA then
    let st := st.nextTok.nextTok
    match st.currentToken.literal with
    | none => .panic
    | some v =>
        fns.paramsLoop (identifiers ++ [Node.identExpr st.currentToken v]) st
  else
    match st.expectPeek .RPAREN with
    | (true, st) => .ok (identifiers, st)
    | (false, _) => .panic

/-- `Parser::parse_function_parameters` (head; the comma loop is
`paramsLoopStep` through `fns`). -/
def parseFunctionParameters (fns : ParserFns) (st : PState) :
    Res (List Node × PState) :=
  if st.peekTokenIs .RPAREN then .ok ([], st.nextTok)
  else
    let st := st.nextTok
    match st.currentToken.literal with
    | none => .panic
    | some v => fns.paramsLoop [Node.identExpr st.currentToken v] st

/-- `Parser::parse_function_expression`. -/
def parseFunctionExpression (fns : ParserFns) (st : PState) :
    Res (Node × PState) :=
  let ogToken := st.currentToken
  match st.expectPeek .LPAREN with
  | (false, _) => .panic
  | (true, st) =>
      match parseFunctionParameters fns st with
      | .panic => .panic
      | .ok (params, st) =>
          match st.expectPeek .LBRACE with
          | (false, _) => .panic
          | (true, st) =>
              match fns.parseBlockStatement st with
              | .panic => .panic
              | .ok (body, st) => .ok (Node.fnLit ogToken params body, st)

/-- The comma loop of `Parser::parse_call_arguments`. -/
def argsLoopStep (fns : ParserFns) (args : List Node) (st : PState) :
    Res (List Node × PState) :=
  if st.peekTokenIs .COMMA then
    let st := st.nextTok.nextTok
    match fns.parseExpression .LOWEST st with
    | .panic => .panic
    | .ok (a, st) => fns.argsLoop (args ++ [a]) st
  else
    match st.expectPeek .RPAREN with
    | (true, st) => .ok (args, st)
    | (false, _) => .panic

/-- `Parser::parse_call_arguments` (head). -/
def parseCallArguments (fns : ParserFns) (st : PState) :
    Res (List Node × PState) :=
  if st.peekTokenIs .RPAREN then .ok ([], st.nextTok)
  else
    let st := st.nextTok
    match fns.parseExpression .LOWEST st with
    | .panic => .panic
    | .ok (a, st) => fns.argsLoop [a] st

/-- `Parser::parse_call_expression`: `LPAREN` in infix position. -/
def parseCallExpression (fns : ParserFns) (func : Node) (st : PState) :
    Res (Node × PState) :=
  let ogToken := st.currentToken
  match parseCallArguments fns st with
  | .panic => .panic
  | .ok (args, st) => .ok (Node.callExpr ogToken func args, st)

/-- The Pratt `while` loop of `Parser::parse_expression`: while the peek
token is not a semicolon and the caller's precedence is strictly below the
peek token's, advance and apply the infix production for the new current
token. -/
def prattLoopStep (fns : ParserFns) (expr : Node)
    (precedence : PrecedenceType) (st : PState) : Res (Node × PState) :=
  if !(st.peekTokenIs .SEMICOLON)
      && decide (precedence.toNat < st.peekPrecedence.toNat) then
    let st := st.nextTok
    match st.currentToken.tokenType with
    | .IDENT =>
        match parseIdentifierExpression st with
        | .panic => .panic
        | .ok (e, st) => fns.prattLoop e precedence st
    | .PLUS | .MINUS | .SLASH | .ASTERISK | .EQ | .NEQ | .GT | .LT =>
        match parseInfixExpression fns expr st with
        | .panic => .panic
        | .ok (e, st) => fns.prattLoop e precedence st
    | .LPAREN =>
        match parseCallExpression fns expr st with
        | .panic => .panic
        | .ok (e, st) => fns.prattLoop e precedence st
    | _ => .panic
  else .ok (expr, st)

/-- One level of `Parser::parse_expression`: the prefix production for
the current token, then the Pratt loop. -/
def parseExpressionStep (fns : ParserFns) (precedence : PrecedenceType)
    (st : PState) : Res (Node × PState) :=
  let leftExpr : Res (Node × PState) :=
    match st.currentToken.tokenType with
    | .INT => parseIntegerExpression st
    | .BANG => parsePrefixExpression fns st
    | .MINUS => parsePrefixExpression fns st
    | .FUNCTION => parseFunctionExpression fns st
    | .IDENT => parseIdentifierExpression st
    | .TRUE => parseBooleanExpression st
    | .FALSE => parseBooleanExpression st
    | .LPAREN => parseGroupedExpression fns st
    | .IF => parseIfExpression fns st
    | _ => .panic
  match leftExpr with
  | .panic => .panic
  | .ok (e, st) => fns.prattLoop e precedence st

/-- `Parser::parse_let_statement`. -/
def parseLetStatement (fns : ParserFns) (st : PState) :
    Res (Node × PState) :=
  let ogToken := st.currentToken
  match st.expectPeek .IDENT with
  | (false, _) => .panic
  | (true, st) =>
      match st.currentToken.literal with
      | none => .panic
      | some v =>
          let name := Node.identExpr st.currentToken v
          match st.expectPeek .ASSIGN with
          | (false, _) => .panic
          | (true, st) =>
              let st := st.nextTok
              match fns.parseExpression .LOWEST st with
              | .panic => .panic
              | .ok (value, st) => .ok (Node.letStmt ogToken name value, st)

/-- `Parser::parse_return_statement`. -/
def parseReturnStatement (fns : ParserFns) (st : PState) :
    Res (Node × PState) :=
  let ogToken := st.currentToken
  let st := st.nextTok
  match fns.parseExpression .LOWEST st with
  | .panic => .panic
  | .ok (value, st) => .ok (Node.returnStmt ogToken value, st)

/-- `Parser::parse_expression_statement` — note the statement's token is
the current token *after* the expression was parsed, i.e. the
expression's last token. -/
def parseExpressionStatement (fns : ParserFns) (st : PState) :
    Res (Node × PState) :=
  match fns.parseExpression .LOWEST st with
  | .panic => .panic
  | .ok (e, st) => .ok (Node.exprStmt st.currentToken e, st)

/-- One level of `Parser::parse_statement`: dispatch on the current
token kind; unknown statement starts panic. -/
def parseStatementStep (fns : ParserFns) (st : PState) :
    Res (Node × PState) :=
  match st.currentToken.tokenType with
  | .LET => parseLetStatement fns st
  | .RETURN => parseReturnStatement fns st
  | .INT | .BANG | .MINUS | .IDENT | .TRUE | .FALSE | .LPAREN | .IF
  | .FUNCTION => parseExpressionStatement fns st
  | _ => .panic

/-- The statement loop of `Parser::parse_block_statement`. -/
def blockLoopStep (fns : ParserFns) (statements : List Node)
    (st : PState) : Res (List Node × PState) :=
  if !(st.currentTokenIs .RBRACE) && !(st.currentTokenIs .EOF) then
    if !(st.currentTokenIs .SEMICOLON) then
      match fns.parseStatement st with
      | .panic => .panic
      | .ok (s, st) => fns.blockLoop (statements ++ [s]) st.nextTok
    else fns.blockLoop statements st.nextTok
  else .ok (statements, st)

/-- One level of `Parser::parse_block_statement`. -/
def parseBlockStatementStep (fns : ParserFns) (st : PState) :
    Res (Node × PState) :=
  let ogToken := st.currentToken
  let st := st.nextTok
  match fns.blockLoop [] st with
  | .panic => .panic
  | .ok (statements, st) => .ok (Node.blockStmt ogToken statements, st)

/-- The top-level loop of `Parser::parse`. -/
def parseLoopStep (fns : ParserFns) (statements : List Node)
    (st : PState) : Res (List Node × PState) :=
  if !(st.currentTokenIs .EOF) then
    if !(st.currentTokenIs .SEMICOLON) then
      match fns.parseStatement st with
      | .panic => .panic
      | .ok (s, st) => fns.parseLoop (statements ++ [s]) st.nextTok
    else fns.parseLoop statements st.nextTok
  else .ok (statements, st)

/-- The parser at a given fuel level (every recursive call costs one
unit; exhausted fuel is a panic). -/
def parserFns : Nat → ParserFns
  | 0 =>
      ⟨fun _ => .panic, fun _ _ => .panic, fun _ => .panic,
       fun _ _ _ => .panic, fun _ _ => .panic, fun _ _ => .panic,
       fun _ _ => .panic, fun _ _ => .panic⟩
  | n + 1 =>
      let p := parserFns n
      ⟨fun st => parseStatementStep p st,
       fun prec st => parseExpressionStep p prec st,
       fun st => parseBlockStatementStep p st,
       fun e prec st => prattLoopStep p e prec st,
       fun acc st => blockLoopStep p acc st,
       fun acc st => paramsLoopStep p acc st,
       fun acc st => argsLoopStep p acc st,
       fun acc st => parseLoopStep p acc st⟩

/-- Parse a token stream as a single expression at `LOWEST` precedence
(the entry point claim C7 is about) and pretty-print the result. -/
def parsePrintExpr (fuel : Nat) (ts : List Token) : Res String :=
  ((parserFns fuel).parseExpression .LOWEST (initParser ts)).map
    (fun r => r.1.toStr)

/-- Goodness of a `Res Env` (used for the call-argument loop). -/
def GoodEnvRes : Res Env → Prop
  | .panic => True
  | .ok env => GoodEnv env

def plusTok : Token := ⟨.PLUS, some ("+")⟩
def minusTok : Token := ⟨.MINUS, some ("-")⟩
def asteriskTok : Token := ⟨.ASTERISK, some ("*")⟩
def slashTok : Token := ⟨.SLASH, some ("/")⟩
def eqTok : Token := ⟨.EQ, some ("==")⟩
def ltTok : Token := ⟨.LT, some ("<")⟩

/-- The token stream for an expression `a o1 b o2 c` over identifiers. -/
def infixToks (a : String) (o1 : Token) (b : String) (o2 : Token)
    (c : String) : List Token :=
  [identTok a, o1, identTok b, o2, identTok c]

/-- The input of the spec's lexer scenario. -/
def lexerScenarioInput : String := "5 == 10; 12 != 9;"

/-- The expected token sequence of the spec's lexer scenario. -/
def lexerScenarioTokens : List Token :=
  [ ⟨.INT, some ("5")⟩, ⟨.EQ, some ("==")⟩, ⟨.INT, some ("10")⟩
  , ⟨.SEMICOLON, some (";")⟩, ⟨.INT, some ("12")⟩, ⟨.NEQ, some ("!=")⟩
  , ⟨.INT, some ("9")⟩, ⟨.SEMICOLON, some (";")⟩, ⟨.EOF, none⟩ ]

/-! ## Helper lemmas -/

theorem string_ne_of_head {a b : String} (h : a.data.head? ≠ b.data.head?) :
    a ≠ b := fun e => h (by rw [e])

theorem msgOk_ne_division {m : String} (h : MsgOk m) :
    m ≠ "division by zero" := by
  rcases h with ⟨s, rfl⟩ | ⟨s, rfl⟩ | ⟨s, rfl⟩ | ⟨s, rfl⟩
  · exact string_ne_of_head (by
      rw [show (("type mismatch: " ++ s)).data.head? = some ('t') from rfl]; decide)
  · exact string_ne_of_head (by
      rw [show (("invalid type: -" ++ s)).data.head? = some ('i') from rfl]; decide)
  · exact string_ne_of_head (by
      rw [show (("unknown operator: " ++ s)).data.head? = some ('u') from rfl]; decide)
  · exact string_ne_of_head (by
      rw [show (("unknown identifier: " ++ s)).data.head? = some ('u') from rfl]; decide)

theorem goodEnv_nil : GoodEnv [] := by intro kv hkv; cases hkv

theorem goodEnv_envUpdate {env : Env} (h : GoodEnv env) (k : String)
    {v : Object} (hv : GoodObj v) : GoodEnv (envUpdate env k v) := by
  induction env with
  | nil =>
      intro kv hkv
      simp only [envUpdate, List.mem_singleton] at hkv
      subst hkv; exact hv
  | cons kv' rest ih =>
      intro kv hkv
      simp only [envUpdate] at hkv
      split at hkv
      · rcases List.mem_cons.mp hkv with h1 | h1
        · subst h1; exact hv
        · exact h kv (List.mem_cons_of_mem _ h1)
      · rcases List.mem_cons.mp hkv with h1 | h1
        · subst h1; exact h kv' (List.mem_cons_self _ _)
        · exact ih (fun x hx => h x (List.mem_cons_of_mem _ hx)) kv h1

theorem goodObj_envGet {env : Env} (h : GoodEnv env) (k : String) :
    GoodObj (envGet env k) := by
  induction env with
  | nil => exact Or.inr (Or.inr (Or.inr ⟨k, rfl⟩))
  | cons kv rest ih =>
      simp only [envGet]
      split
      · exact h kv (List.mem_cons_self _ _)
      · exact ih (fun x hx => h x (List.mem_cons_of_mem _ hx))

theorem goodEnv_applyUpdates {env : Env} (h : GoodEnv env)
    {u : Option (List (String × Object))} (hu : GoodUpdates u) :
    GoodEnv (applyUpdates env u) := by
  cases u with
  | none => exact h
  | some us =>
      induction us generalizing env with
      | nil => exact h
      | cons kv rest ih =>
          show GoodEnv (applyUpdates (envUpdate env kv.1 kv.2) (some rest))
          exact ih (goodEnv_envUpdate h kv.1 (hu kv (List.mem_cons_self _ _)))
            (fun x hx => hu x (List.mem_cons_of_mem _ hx))

theorem blockEvalLoop_good (fns : EvalFns) (hf : GoodFns fns)
    (stmts : List Node) :
    ∀ (r0 : Option Object) (env : Env), GoodRes r0 → GoodEnv env →
      GoodEvalRes (blockEvalLoop fns stmts r0 env) := by
  induction stmts with
  | nil => intro r0 env hr henv; exact ⟨hr, henv⟩
  | cons s rest ih =>
      intro r0 env hr henv
      simp only [blockEvalLoop]
      split
      · trivial
      · next result env' heq =>
          have hsub : GoodRes result ∧ GoodEnv env' := by
            have h := hf.1 s env henv; rw [heq] at h; exact h
          split
          · trivial
          · next lit hlit =>
              split
              · exact hsub
              · split
                · exact hsub
                · split
                  · trivial
                  · next updates env'' hequ =>
                      have husub : GoodUpdates updates ∧ GoodEnv env'' := by
                        have h := hf.2 s env' hsub.2; rw [hequ] at h; exact h
                      exact ih result (applyUpdates env'' updates) hsub.1
                        (goodEnv_applyUpdates husub.2 husub.1)

theorem blockUpdLoop_good (fns : EvalFns) (hf : GoodFns fns)
    (stmts : List Node) :
    ∀ (acc : List (String × Object)) (env : Env),
      (∀ kv ∈ acc, GoodObj kv.2) → GoodEnv env →
      GoodUpdRes (blockUpdLoop fns stmts acc env) := by
  induction stmts with
  | nil => intro acc env hacc henv; exact ⟨hacc, henv⟩
  | cons s rest ih =>
      intro acc env hacc henv
      simp only [blockUpdLoop]
      split
      · trivial
      · next result env' heq =>
          have hsub : GoodRes result ∧ GoodEnv env' := by
            have h := hf.1 s env henv; rw [heq] at h; exact h
          split
          · trivial
          · next lit hlit =>
              split
              · exact ⟨hacc, hsub.2⟩
              · split
                · exact ⟨hacc, hsub.2⟩
                · split
                  · trivial
                  · next updates env'' hequ =>
                      have husub : GoodUpdates updates ∧ GoodEnv env'' := by
                        have h := hf.2 s env' hsub.2; rw [hequ] at h; exact h
                      cases updates with
                      | none => exact ih acc env'' hacc husub.2
                      | some us =>
                          refine ih (acc ++ us) (applyUpdates env'' (some us)) ?_ ?_
                          · intro kv hkv
                            rcases List.mem_append.mp hkv with h1 | h1
                            · exact hacc kv h1
                            · exact husub.1 kv h1
                          · exact goodEnv_applyUpdates husub.2 husub.1

theorem callArgsLoop_good (fns : EvalFns) (hf : GoodFns fns)
    (args : List Node) :
    ∀ (params : List Node) (env : Env), GoodEnv env →
      GoodEnvRes (callArgsLoop fns args params env) := by
  induction args with
  | nil => intro params env henv; exact henv
  | cons a rest ih =>
      intro params env henv
      simp only [callArgsLoop]
      split
      · trivial
      · next r env' heq =>
          have hsub : GoodRes r ∧ GoodEnv env' := by
            have h := hf.1 a env henv; rw [heq] at h; exact h
          split
          · trivial
          · next v =>
              split
              · trivial
              · next p ps =>
                  split
                  · trivial
                  · next name _ =>
                      exact ih ps (envUpdate env' name v)
                        (goodEnv_envUpdate hsub.2 name hsub.1)

theorem msgOk_typeMismatch (A opr B : String) :
    MsgOk ((((("type mismatch: " ++ A) ++ " ") ++ opr) ++ " ") ++ B) :=
  Or.inl ⟨A ++ (" " ++ (opr ++ (" " ++ B))), by simp [String.append_assoc]⟩

theorem evalStep_good (fns : EvalFns) (hf : GoodFns fns) (node : Node)
    (env : Env) (henv : GoodEnv env) : GoodEvalRes (evalStep fns node env) := by
  cases node with
  | letStmt t name value => exact ⟨trivial, henv⟩
  | returnStmt t value => exact hf.1 value env henv
  | exprStmt t e => exact hf.1 e env henv
  | blockStmt t stmts => exact blockEvalLoop_good fns hf stmts none env trivial henv
  | identExpr t v => exact ⟨goodObj_envGet henv v, henv⟩
  | intLit t v => exact ⟨trivial, henv⟩
  | boolLit t v => exact ⟨trivial, henv⟩
  | prefixExpr t op right =>
      simp only [evalStep]
      split
      · trivial
      · next rightEval env' heq =>
          have hsub : GoodRes rightEval ∧ GoodEnv env' := by
            have h := hf.1 right env henv; rw [heq] at h; exact h
          split
          · trivial
          · next rightResult =>
              split
              · exact hsub
              · split
                · split <;> exact ⟨trivial, hsub.2⟩
                · split
                  · exact ⟨trivial, hsub.2⟩
                  · exact ⟨Or.inr (Or.inl ⟨_, rfl⟩), hsub.2⟩
                · refine ⟨Or.inr (Or.inr (Or.inl ⟨"\"" ++ (op ++ "\""), ?_⟩)), hsub.2⟩
                  calc ("unknown operator: \"" ++ op) ++ "\""
                      = (("unknown operator: " ++ "\"") ++ op) ++ "\"" := rfl
                    _ = "unknown operator: " ++ ("\"" ++ (op ++ "\"")) := by
                        rw [String.append_assoc, String.append_assoc]
  | infixExpr t left op right =>
      simp only [evalStep]
      split
      · trivial
      · next leftEval env1 heq =>
          have hsub : GoodRes leftEval ∧ GoodEnv env1 := by
            have h := hf.1 left env henv; rw [heq] at h; exact h
          split
          · exact hsub
          · split
            · trivial
            · next leftResult =>
                split
                · trivial
                · next rightEval env2 heq2 =>
                    have hsub2 : GoodRes rightEval ∧ GoodEnv env2 := by
                      have h := hf.1 right env1 hsub.2; rw [heq2] at h; exact h
                    split
                    · exact hsub2
                    · split
                      · trivial
                      · next rightResult =>
                          split
                          · split
                            · exact ⟨trivial, hsub2.2⟩
                            · exact ⟨trivial, hsub2.2⟩
                            · split
                              · trivial
                              · exact ⟨trivial, hsub2.2⟩
                            · exact ⟨trivial, hsub2.2⟩
                            · exact ⟨trivial, hsub2.2⟩
                            · exact ⟨trivial, hsub2.2⟩
                            · exact ⟨trivial, hsub2.2⟩
                            · exact ⟨trivial, hsub2.2⟩
                            · exact ⟨trivial, hsub2.2⟩
                          · split
                            · exact ⟨trivial, hsub2.2⟩
                            · exact ⟨trivial, hsub2.2⟩
                            · exact ⟨trivial, hsub2.2⟩
                          · exact ⟨msgOk_typeMismatch _ op _, hsub2.2⟩
  | ifExpr t condition consequence alternative =>
      simp only [evalStep]
      split
      · trivial
      · next conditionResult env' heq =>
          have hsub : GoodRes conditionResult ∧ GoodEnv env' := by
            have h := hf.1 condition env henv; rw [heq] at h; exact h
          split
          · exact hsub
          · split
            · exact hf.1 consequence env' hsub.2
            · split
              · exact hf.1 _ env' hsub.2
              · exact ⟨trivial, hsub.2⟩
  | fnLit t params body => exact ⟨trivial, henv⟩
  | callExpr t function arguments =>
      simp only [evalStep]
      split
      · trivial
      · next ogFn scopedEnv heq =>
          have hsub : GoodRes ogFn ∧ GoodEnv scopedEnv := by
            have h := hf.1 function env henv; rw [heq] at h; exact h
          split
          · trivial
          · next ogFnObj =>
              split
              · next ogParams b e =>
                  have hloop := callArgsLoop_good fns hf arguments ogParams
                    scopedEnv hsub.2
                  split
                  · trivial
                  · next scopedEnv2 heq2 =>
                      have hsc2 : GoodEnv scopedEnv2 := by
                        rw [heq2] at hloop; exact hloop
                      split
                      · trivial
                      · next unwrapped scopedEnv3 heq3 =>
                          have hsub3 : GoodRes unwrapped ∧ GoodEnv scopedEnv3 := by
                            have h := hf.1 function scopedEnv2 hsc2
                            rw [heq3] at h; exact h
                          split
                          · trivial
                          · next fnObj =>
                              split
                              · next ps body e2 =>
                                  split
                                  · trivial
                                  · next result env4 heq4 =>
                                      have hres : GoodRes result ∧ GoodEnv env4 := by
                                        have h := hf.1 body scopedEnv3 hsub3.2
                                        rw [heq4] at h; exact h
                                      exact ⟨hres.1, henv⟩
                              · trivial
              · trivial

theorem updStep_good (fns : EvalFns) (hf : GoodFns fns) (node : Node)
    (env : Env) (henv : GoodEnv env) : GoodUpdRes (updStep fns node env) := by
  cases node with
  | letStmt t name value =>
      simp only [updStep]
      split
      · trivial
      · next result env' heq =>
          have hsub : GoodRes result ∧ GoodEnv env' := by
            have h := hf.1 value env henv; rw [heq] at h; exact h
          split
          · next v =>
              refine ⟨?_, hsub.2⟩
              intro kv hkv
              simp only [List.mem_singleton] at hkv
              subst hkv; exact hsub.1
          · exact ⟨trivial, hsub.2⟩
  | returnStmt t value => exact ⟨trivial, henv⟩
  | exprStmt t e => exact hf.2 e env henv
  | blockStmt t stmts =>
      exact blockUpdLoop_good fns hf stmts [] env (by intro kv h; cases h) henv
  | identExpr t v => exact ⟨trivial, henv⟩
  | intLit t v => exact ⟨trivial, henv⟩
  | boolLit t v => exact ⟨trivial, henv⟩
  | prefixExpr t op r => exact ⟨trivial, henv⟩
  | infixExpr t l op r => exact ⟨trivial, henv⟩
  | ifExpr t c cs alt => exact ⟨trivial, henv⟩
  | fnLit t p b => trivial
  | callExpr t f args => exact ⟨trivial, henv⟩

theorem evalFns_good : ∀ fuel, GoodFns (evalFns fuel) := by
  intro fuel
  induction fuel with
  | zero => exact ⟨fun _ _ _ => trivial, fun _ _ _ => trivial⟩
  | succ n ih =>
      exact ⟨fun node env henv => evalStep_good (evalFns n) ih node env henv,
             fun node env henv => updStep_good (evalFns n) ih node env henv⟩

/-! ## The claims -/

/-- C1, counterexample: the program `let x = 1; let f = fn(){ x }; let x = 2; f()`
evaluates to `Integer 2`, not `Integer 1` as the claim states: the call
evaluates the function body in a copy of the caller's environment (where
`x` is 2 by then); the environment snapshot stored in the `Function`
object is never consulted. -/
theorem c1_counterexample :
    (runProgram 32 progC1 []).map Prod.fst = .ok (some (Object.integer 2)) ∧
    (runProgram 32 progC1 []).map Prod.fst ≠ .ok (some (Object.integer 1)) := by
  refine ⟨rfl, ?_⟩
  intro h
  rw [show (runProgram 32 progC1 []).map Prod.fst =
    .ok (some (Object.integer 2)) from rfl] at h
  simp at h

/-- C1, amended: for any two integer literals, `let x = v1; let f = fn(){ x };
let x = v2; f()` evaluates to `Integer v2` — rebinding an outer name
between closure creation and call IS observable, because
`CallExpression::eval` runs the body in a clone of the caller's
environment and never reads the function's captured environment. -/
theorem c1_amended (v1 v2 : Int) :
    (runProgram 32 (progC1gen v1 v2) []).map Prod.fst =
      .ok (some (Object.integer v2)) := rfl

/-- C2, counterexample: `fn(x){ 5; }(foobar)` evaluates to `Integer 5`
even though its subexpression `foobar` alone evaluates to the
`unknown identifier` error — call arguments do not absorb errors (the
error object is bound to the parameter `x` and the body runs anyway). -/
theorem c2_counterexample :
    (evalFns 16).eval exprC2container [] = .ok (some (Object.integer 5), []) ∧
    (evalFns 16).eval exprFoobar [] =
      .ok (some (Object.error ("unknown identifier: foobar")), []) ∧
    (evalFns 16).eval exprC2container [] ≠ (evalFns 16).eval exprFoobar [] := by
  refine ⟨rfl, rfl, ?_⟩
  intro h
  rw [show (evalFns 16).eval exprC2container [] =
        .ok (some (Object.integer 5), []) from rfl,
      show (evalFns 16).eval exprFoobar [] =
        .ok (some (Object.error ("unknown identifier: foobar")), []) from rfl] at h
  simp at h

/-- C2, amended: `Error` absorption holds stepwise at prefix operands,
infix operands (left and right), `if` conditions, and statement results in
block and top-level program loops — but not at call arguments or the call
function position (see the counterexample). -/
theorem c2_amended :
    (∀ (fns : EvalFns) (t : Token) (op : String) (r : Node) (env env' : Env)
        (m : String),
      fns.eval r env = .ok (some (Object.error m), env') →
      evalStep fns (Node.prefixExpr t op r) env =
        .ok (some (Object.error m), env')) ∧
    (∀ (fns : EvalFns) (t : Token) (l : Node) (op : String) (r : Node)
        (env env' : Env) (m : String),
      fns.eval l env = .ok (some (Object.error m), env') →
      evalStep fns (Node.infixExpr t l op r) env =
        .ok (some (Object.error m), env')) ∧
    (∀ (fns : EvalFns) (t : Token) (l : Node) (op : String) (r : Node)
        (env env1 env2 : Env) (lv : Object) (m : String),
      fns.eval l env = .ok (some lv, env1) → lv.typeTag ≠ .ERROR →
      fns.eval r env1 = .ok (some (Object.error m), env2) →
      evalStep fns (Node.infixExpr t l op r) env =
        .ok (some (Object.error m), env2)) ∧
    (∀ (fns : EvalFns) (t : Token) (cnd cons : Node) (alt : Option Node)
        (env env' : Env) (m : String),
      fns.eval cnd env = .ok (some (Object.error m), env') →
      evalStep fns (Node.ifExpr t cnd cons alt) env =
        .ok (some (Object.error m), env')) ∧
    (∀ (fns : EvalFns) (s : Node) (rest : List Node) (r0 : Option Object)
        (env env' : Env) (lit m : String),
      s.tokenLiteral = some lit →
      fns.eval s env = .ok (some (Object.error m), env') →
      blockEvalLoop fns (s :: rest) r0 env =
        .ok (some (Object.error m), env')) ∧
    (∀ (fns : EvalFns) (s : Node) (rest : List Node) (r0 : Option Object)
        (env env' : Env) (lit m : String),
      s.tokenLiteral = some lit →
      fns.eval s env = .ok (some (Object.error m), env') →
      progLoop fns (s :: rest) r0 env = .ok (some (Object.error m), env')) := by
  refine ⟨?_, ?_, ?_, ?_, ?_, ?_⟩
  · intro fns t op r env env' m h
    simp [evalStep, h, Object.typeTag]
  · intro fns t l op r env env' m h
    simp [evalStep, h, isError, Object.typeTag]
  · intro fns t l op r env env1 env2 lv m hl hlv hr
    have hfalse : isError (some lv) = false := by simpa [isError] using hlv
    simp only [evalStep, hl]
    rw [hfalse]
    simp [hr, isError, Object.typeTag]
  · intro fns t cnd cons alt env env' m h
    simp [evalStep, h, isError, Object.typeTag]
  · intro fns s rest r0 env env' lit m hlit hev
    by_cases hr : lit = "return" <;>
      simp [blockEvalLoop, hev, hlit, hr, isError, Object.typeTag]
  · intro fns s rest r0 env env' lit m hlit hev
    by_cases hr : lit = "return" <;>
      simp [progLoop, hev, hlit, hr, isError, Object.typeTag]

/-- C2, witness for the amended absorption: `-foobar` returns the
`unknown identifier` error of its operand unchanged. -/
theorem c2_amended_witness :
    (evalFns 1).eval exprFoobar [] =
      .ok (some (Object.error ("unknown identifier: foobar")), []) ∧
    evalStep (evalFns 1) (Node.prefixExpr minusTok ("-") exprFoobar) [] =
      .ok (some (Object.error ("unknown identifier: foobar")), []) :=
  ⟨rfl, c2_amended.1 (evalFns 1) minusTok ("-") exprFoobar [] [] _ rfl⟩

/-- C3, counterexample: evaluating the single top-level statement
`if (true) { let y = 1; foobar; }` from an empty session environment
yields an `Error`, yet the session environment afterwards contains the
binding `y = 1` made inside the block before the error — partial effects
of the failing statement persist. -/
theorem c3_counterexample :
    runProgram 16 progC3 [] =
      .ok (some (Object.error ("unknown identifier: foobar")),
        [(("y"), Object.integer 1)]) ∧
    ([(("y"), Object.integer 1)] : Env) ≠ ([] : Env) :=
  ⟨rfl, by simp⟩

/-- C3, amended: when a top-level statement's evaluation yields an
`Error`, `Program::eval` returns that error immediately without invoking
the statement's `update_env` — so the environment afterwards is exactly
what the statement's `eval` left it (unchanged for a top-level `let`,
whose `eval` is a no-op, but block-level `let`s inside the statement may
already have written through the mutable borrow). -/
theorem c3_amended :
    (∀ (fns : EvalFns) (s : Node) (rest : List Node) (r0 : Option Object)
        (env env' : Env) (lit m : String),
      s.tokenLiteral = some lit → lit ≠ "return" →
      fns.eval s env = .ok (some (Object.error m), env') →
      progLoop fns (s :: rest) r0 env = .ok (some (Object.error m), env')) ∧
    (∀ (fns : EvalFns) (t : Token) (name value : Node) (env : Env),
      evalStep fns (Node.letStmt t name value) env = .ok (none, env)) := by
  constructor
  · intro fns s rest r0 env env' lit m hlit hret hev
    simp [progLoop, hev, hlit, hret, isError, Object.typeTag]
  · intro fns t name value env
    rfl

/-- C3, witness for the amended claim at `foobar;` as the sole statement. -/
theorem c3_amended_witness :
    (Node.exprStmt (identTok ("foobar")) exprFoobar).tokenLiteral =
      some ("foobar") ∧
    (("foobar") : String) ≠ "return" ∧
    (evalFns 2).eval (Node.exprStmt (identTok ("foobar")) exprFoobar) [] =
      .ok (some (Object.error ("unknown identifier: foobar")), []) ∧
    progLoop (evalFns 2) [Node.exprStmt (identTok ("foobar")) exprFoobar]
        none [] =
      .ok (some (Object.error ("unknown identifier: foobar")), []) :=
  ⟨rfl, by decide, rfl,
    c3_amended.1 (evalFns 2) _ [] none [] [] ("foobar") _ rfl (by decide) rfl⟩

/-- C4 (confirmed): infix evaluation typing.  When both operands evaluate
to `INTEGER` values, `+ - * /` produce an `Integer` and `< > == !=` a
`Boolean` with i64 semantics (`/` truncates toward zero; divisor assumed
nonzero — a zero divisor panics, claim C10); any other operator yields
`None`.  When both are `BOOLEAN`, `==`/`!=` produce a `Boolean` and any
other operator yields `None`.  Any other pair of (non-error) operand
values yields `Error "type mismatch: LEFT_TYPE OP RIGHT_TYPE"`, so
`5 + true` gives `Error "type mismatch: INTEGER + BOOLEAN"`. -/
theorem c4_infix_typing (fns : EvalFns) (t : Token) (l r : Node)
    (env env1 env2 : Env) :
    (∀ (a b : Int), fns.eval l env = .ok (some (Object.integer a), env1) →
      fns.eval r env1 = .ok (some (Object.integer b), env2) →
      evalStep fns (Node.infixExpr t l ("+") r) env =
        .ok (some (Object.integer (a + b)), env2) ∧
      evalStep fns (Node.infixExpr t l ("-") r) env =
        .ok (some (Object.integer (a - b)), env2) ∧
      evalStep fns (Node.infixExpr t l ("*") r) env =
        .ok (some (Object.integer (a * b)), env2) ∧
      (b ≠ 0 → evalStep fns (Node.infixExpr t l ("/") r) env =
        .ok (some (Object.integer (Int.tdiv a b)), env2)) ∧
      evalStep fns (Node.infixExpr t l ("<") r) env =
        .ok (some (Object.boolean (decide (a < b))), env2) ∧
      evalStep fns (Node.infixExpr t l (">") r) env =
        .ok (some (Object.boolean (decide (a > b))), env2) ∧
      evalStep fns (Node.infixExpr t l ("==") r) env =
        .ok (some (Object.boolean (a == b)), env2) ∧
      evalStep fns (Node.infixExpr t l ("!=") r) env =
        .ok (some (Object.boolean (a != b)), env2) ∧
      (∀ op : String, op ≠ "+" → op ≠ "-" → op ≠ "*" → op ≠ "/" →
        op ≠ "<" → op ≠ ">" → op ≠ "==" → op ≠ "!=" →
        evalStep fns (Node.infixExpr t l op r) env = .ok (none, env2))) ∧
    (∀ (p q : Bool), fns.eval l env = .ok (some (Object.boolean p), env1) →
      fns.eval r env1 = .ok (some (Object.boolean q), env2) →
      evalStep fns (Node.infixExpr t l ("==") r) env =
        .ok (some (Object.boolean (p == q)), env2) ∧
      evalStep fns (Node.infixExpr t l ("!=") r) env =
        .ok (some (Object.boolean (p != q)), env2) ∧
      (∀ op : String, op ≠ "==" → op ≠ "!=" →
        evalStep fns (Node.infixExpr t l op r) env = .ok (none, env2))) ∧
    (∀ (lv rv : Object) (op : String),
      fns.eval l env = .ok (some lv, env1) →
      fns.eval r env1 = .ok (some rv, env2) →
      lv.typeTag ≠ .ERROR → rv.typeTag ≠ .ERROR →
      ¬(lv.typeTag = .INTEGER ∧ rv.typeTag = .INTEGER) →
      ¬(lv.typeTag = .BOOLEAN ∧ rv.typeTag = .BOOLEAN) →
      evalStep fns (Node.infixExpr t l op r) env =
        .ok (some (Object.error ("type mismatch: " ++ lv.typeTag.debugStr
          ++ " " ++ op ++ " " ++ rv.typeTag.debugStr)), env2)) := by
  refine ⟨?_, ?_, ?_⟩
  · intro a b hl hr
    refine ⟨?_, ?_, ?_, ?_, ?_, ?_, ?_, ?_, ?_⟩
    · simp [evalStep, hl, hr, isError, Object.typeTag]
    · simp [evalStep, hl, hr, isError, Object.typeTag]
    · simp [evalStep, hl, hr, isError, Object.typeTag]
    · intro hb
      simp [evalStep, hl, hr, isError, Object.typeTag, hb]
    · simp [evalStep, hl, hr, isError, Object.typeTag]
    · simp [evalStep, hl, hr, isError, Object.typeTag]
    · simp [evalStep, hl, hr, isError, Object.typeTag]
    · simp [evalStep, hl, hr, isError, Object.typeTag]
    · intro op h1 h2 h3 h4 h5 h6 h7 h8
      simp [evalStep, hl, hr, isError, Object.typeTag]
  · intro p q hl hr
    refine ⟨?_, ?_, ?_⟩
    · simp [evalStep, hl, hr, isError, Object.typeTag]
    · simp [evalStep, hl, hr, isError, Object.typeTag]
    · intro op h1 h2
      simp [evalStep, hl, hr, isError, Object.typeTag]
  · intro lv rv op hl hr h1 h2 h3 h4
    have hf1 : isError (some lv) = false := by simpa [isError] using h1
    have hf2 : isError (some rv) = false := by simpa [isError] using h2
    simp only [evalStep, hl]
    rw [hf1]
    simp only [if_false, Bool.false_eq_true, hr]
    rw [hf2]
    simp only [if_false, Bool.false_eq_true]
    cases lv <;> cases rv <;>
      simp_all [Object.typeTag, Ty.debugStr]

/-- C4, witness: `5 + true` evaluates to the type-mismatch error the spec
gives. -/
theorem c4_witness :
    (evalFns 1).eval (Node.intLit (intTok 5) 5) [] =
      .ok (some (Object.integer 5), []) ∧
    (evalFns 1).eval (Node.boolLit trueTok true) [] =
      .ok (some (Object.boolean true), []) ∧
    evalStep (evalFns 1) (Node.infixExpr plusTok (Node.intLit (intTok 5) 5)
        ("+") (Node.boolLit trueTok true)) [] =
      .ok (some (Object.error ("type mismatch: INTEGER + BOOLEAN")), []) :=
  ⟨rfl, rfl, by
    have h := (c4_infix_typing (evalFns 1) plusTok (Node.intLit (intTok 5) 5)
      (Node.boolLit trueTok true) [] [] []).2.2 (Object.integer 5)
      (Object.boolean true) ("+") rfl rfl (by decide) (by decide) (by decide)
      (by decide)
    exact h.trans (by rfl)⟩

/-- C5 (confirmed): prefix operator semantics.  `!` on a (non-error)
operand yields `bangValue`: Boolean negation for a `BOOLEAN`, `false` for
`NULL`, and `false` for every other value (integers included); `-` on an
`Integer` yields its negation and on any other (non-error) operand yields
`Error "invalid type: -TYPE"`, so `-true` gives
`Error "invalid type: -BOOLEAN"`. -/
theorem c5_prefix_semantics (fns : EvalFns) (t : Token) (r : Node)
    (env env' : Env) (v : Object)
    (h : fns.eval r env = .ok (some v, env')) (hv : v.typeTag ≠ .ERROR) :
    evalStep fns (Node.prefixExpr t ("!") r) env =
      .ok (some (Object.boolean (bangValue v)), env') ∧
    (∀ b, bangValue (Object.boolean b) = !b) ∧
    bangValue Object.null = false ∧
    (∀ n, bangValue (Object.integer n) = false) ∧
    (∀ ps bd fe, bangValue (Object.function ps bd fe) = false) ∧
    (∀ n, v = Object.integer n →
      evalStep fns (Node.prefixExpr t ("-") r) env =
        .ok (some (Object.integer (-n)), env')) ∧
    (v.typeTag ≠ .INTEGER →
      evalStep fns (Node.prefixExpr t ("-") r) env =
        .ok (some (Object.error ("invalid type: -" ++ v.typeTag.debugStr)),
          env')) := by
  refine ⟨?_, fun b => rfl, rfl, fun n => rfl, fun ps bd fe => rfl, ?_, ?_⟩
  · simp only [evalStep, h]
    cases v <;> simp_all [Object.typeTag, bangValue]
  · intro n hn
    subst hn
    simp [evalStep, h, Object.typeTag]
  · intro hne
    simp only [evalStep, h]
    cases v <;> simp_all [Object.typeTag, Ty.debugStr]

/-- C5, witness: `-true` evaluates to `Error "invalid type: -BOOLEAN"`. -/
theorem c5_witness :
    (evalFns 1).eval (Node.boolLit trueTok true) [] =
      .ok (some (Object.boolean true), []) ∧
    ((Object.boolean true).typeTag ≠ Ty.ERROR) ∧
    evalStep (evalFns 1) (Node.prefixExpr minusTok ("-")
        (Node.boolLit trueTok true)) [] =
      .ok (some (Object.error ("invalid type: -BOOLEAN")), []) :=
  ⟨rfl, by decide, by
    have h := (c5_prefix_semantics (evalFns 1) minusTok
      (Node.boolLit trueTok true) [] [] (Object.boolean true) rfl
      (by decide)).2.2.2.2.2.2 (by decide)
    exact h.trans (by rfl)⟩

/-- C6, counterexample: in `foobar; return 10;` the first top-level
`return`'s value evaluates to `Integer 10`, but the program's result is
the `unknown identifier` error of the earlier statement — the claim's
universal statement fails for programs whose earlier statements error. -/
theorem c6_counterexample :
    runProgram 8 progC6bad [] =
      .ok (some (Object.error ("unknown identifier: foobar")), []) ∧
    (evalFns 8).eval (Node.returnStmt returnTok (Node.intLit (intTok 10) 10))
        [] = .ok (some (Object.integer 10), []) ∧
    runProgram 8 progC6bad [] ≠ .ok (some (Object.integer 10), []) := by
  refine ⟨rfl, rfl, ?_⟩
  intro h
  rw [show runProgram 8 progC6bad [] =
    .ok (some (Object.error ("unknown identifier: foobar")), []) from rfl] at h
  simp at h

/-- C6, amended: if the statements before the first top-level `return`
run cleanly (no error, no panic, not themselves `return`s), the program's
result is exactly the evaluation of that `return` statement, and the
statements after it are never evaluated (the right-hand side does not
mention them). -/
theorem c6_amended (fns : EvalFns) (pre : List Node) (env env2 : Env)
    (hpre : CleanSteps fns pre env env2) (s : Node)
    (hs : s.tokenLiteral = some ("return")) (rest : List Node)
    (r0 : Option Object) :
    progLoop fns (pre ++ s :: rest) r0 env = fns.eval s env2 := by
  induction hpre generalizing r0 with
  | nil env3 =>
      cases hev : fns.eval s env3 with
      | panic => simp [progLoop, hev]
      | ok p => obtain ⟨rr, ee⟩ := p; simp [progLoop, hev, hs]
  | cons s' rest' env env' env'' envF lit rr u hlit hret hev herr hupd htail ih =>
      have hbeq : (lit == "return") = false := by simp [hret]
      simp only [List.cons_append, progLoop, hev, hlit, hbeq, herr,
        Bool.false_eq_true, if_false, hupd]
      exact ih rr

/-- C6, witness: `5; return 10; 15;` evaluates to `Integer 10` via the
amended short-circuit theorem (the `5;` prefix runs cleanly). -/
theorem c6_witness :
    CleanSteps (evalFns 4) [Node.exprStmt (intTok 5) (Node.intLit (intTok 5) 5)]
      [] [] ∧
    progLoop (evalFns 4) progC6 none [] = .ok (some (Object.integer 10), []) := by
  have hc : CleanSteps (evalFns 4)
      [Node.exprStmt (intTok 5) (Node.intLit (intTok 5) 5)] [] [] := by
    refine CleanSteps.cons _ _ _ [] [] _ ("5") (some (Object.integer 5)) none
      rfl (by decide) rfl rfl rfl ?_
    exact CleanSteps.nil []
  refine ⟨hc, ?_⟩
  have h := c6_amended (evalFns 4) _ [] [] hc
    (Node.returnStmt returnTok (Node.intLit (intTok 10) 10)) rfl
    [Node.exprStmt (intTok 15) (Node.intLit (intTok 15) 15)] none
  exact h.trans (by rfl)

/-- C9, counterexample: `return 1; fn(){};` contains a function literal
as a bare expression statement, yet evaluation returns `Integer 1` and
does not panic — the claim's "for every program that contains" fails when
evaluation never reaches the statement. -/
theorem c9_counterexample :
    runProgram 8 progC9bad [] = .ok (some (Object.integer 1), []) ∧
    runProgram 8 progC9bad [] ≠ Res.panic := by
  refine ⟨rfl, ?_⟩
  intro h
  rw [show runProgram 8 progC9bad [] =
    .ok (some (Object.integer 1), []) from rfl] at h
  exact Res.noConfusion h

/-- C9, amended: whenever the program loop (or a block's statement loop)
reaches a bare function-literal expression statement, evaluation panics
at every fuel level: the statement evaluates to a `Function` object, and
the driver then calls `update_env`, which dispatches through
`ExpressionStatement` to `FunctionLiteralExpression::update_env`, a
`todo!()`.  (The statement's token literal being `return` — impossible
for parser output — would instead short-circuit.) -/
theorem c9_amended (fuel : Nat) (t t2 : Token) (params : List Node)
    (body : Node) (rest : List Node) (r0 : Option Object) (env : Env)
    (hlit : t.literal ≠ some ("return")) :
    progLoop (evalFns fuel) (Node.exprStmt t (Node.fnLit t2 params body)
      :: rest) r0 env = Res.panic ∧
    blockEvalLoop (evalFns fuel) (Node.exprStmt t (Node.fnLit t2 params body)
      :: rest) r0 env = Res.panic := by
  rcases fuel with _ | fuel
  · exact ⟨rfl, rfl⟩
  rcases fuel with _ | fuel
  · exact ⟨rfl, rfl⟩
  have h1 : (evalFns (fuel + 1 + 1)).eval
      (Node.exprStmt t (Node.fnLit t2 params body)) env =
      .ok (some (Object.function params body env), env) := rfl
  have h2 : (evalFns (fuel + 1 + 1)).upd
      (Node.exprStmt t (Node.fnLit t2 params body)) env = Res.panic := rfl
  have h3 : isError (some (Object.function params body env)) = false := rfl
  cases ht : t.literal with
  | none =>
      constructor <;>
        simp only [progLoop, blockEvalLoop, h1, Node.tokenLiteral, ht]
  | some lit =>
      have hbeq : (lit == "return") = false := by
        simp only [beq_eq_false_iff_ne, ne_eq]
        intro e
        exact hlit (by rw [ht, e])
      constructor <;>
        simp only [progLoop, blockEvalLoop, h1, Node.tokenLiteral, ht, hbeq,
          Bool.false_eq_true, if_false, h3, h2]

/-- C9, witness: a bare `fn(){}` expression statement at the head of a
program panics. -/
theorem c9_witness :
    ((⟨TokenType.RBRACE, some ("\x7d")⟩ : Token).literal ≠ some ("return")) ∧
    progLoop (evalFns 4)
      [Node.exprStmt ⟨TokenType.RBRACE, some ("\x7d")⟩
        (Node.fnLit fnTok [] (Node.blockStmt lbraceTok []))] none [] =
      Res.panic :=
  ⟨by decide,
    (c9_amended 4 ⟨TokenType.RBRACE, some ("\x7d")⟩ fnTok []
      (Node.blockStmt lbraceTok []) [] none [] (by decide)).1⟩

/-- C10 (confirmed): integer division is unguarded.  When both operands
of `/` evaluate to integers and the divisor is `Integer 0`, evaluation
panics (host `i64` division) instead of producing an `Error` value; and
no evaluation from a well-formed environment ever returns an `Error`
whose message is `division by zero` — every error message the evaluator
can build lies in one of the four `MsgOk` families. -/
theorem c10_division :
    (∀ (fns : EvalFns) (t : Token) (l r : Node) (env env1 env2 : Env)
        (a : Int),
      fns.eval l env = .ok (some (Object.integer a), env1) →
      fns.eval r env1 = .ok (some (Object.integer 0), env2) →
      evalStep fns (Node.infixExpr t l ("/") r) env = Res.panic) ∧
    (∀ (fuel : Nat) (node : Node) (env : Env), GoodEnv env →
      ∀ (m : String) (env' : Env),
        (evalFns fuel).eval node env = .ok (some (Object.error m), env') →
        m ≠ ("division by zero")) := by
  constructor
  · intro fns t l r env env1 env2 a hl hr
    simp [evalStep, hl, hr, isError, Object.typeTag]
  · intro fuel node env henv m env' heq
    have h := (evalFns_good fuel).1 node env henv
    rw [heq] at h
    exact msgOk_ne_division h.1

/-- C10, witness: `5 / 0` panics. -/
theorem c10_witness :
    (evalFns 1).eval (Node.intLit (intTok 5) 5) [] =
      .ok (some (Object.integer 5), []) ∧
    (evalFns 1).eval (Node.intLit (intTok 0) 0) [] =
      .ok (some (Object.integer 0), []) ∧
    evalStep (evalFns 1) (Node.infixExpr slashTok (Node.intLit (intTok 5) 5)
        ("/") (Node.intLit (intTok 0) 0)) [] = Res.panic :=
  ⟨rfl, rfl,
    c10_division.1 (evalFns 1) slashTok (Node.intLit (intTok 5) 5)
      (Node.intLit (intTok 0) 0) [] [] [] 5 rfl rfl⟩

set_option maxHeartbeats 1000000 in
/-- C7 (confirmed): Pratt-parser precedence and left associativity.  For
all identifier names `a b c`, parsing and pretty-printing gives
`a + b * c` → `(a + (b * c))`, `a * b + c` → `((a * b) + c)`,
`a == b < c` → `(a == (b < c))`, and (same-precedence left associativity)
`a + b - c` → `((a + b) - c)`. -/
theorem c7_precedence (a b c : String) :
    parsePrintExpr 6 (infixToks a plusTok b asteriskTok c) =
      .ok ("(" ++ a ++ " + (" ++ b ++ " * " ++ c ++ "))") ∧
    parsePrintExpr 6 (infixToks a asteriskTok b plusTok c) =
      .ok ("((" ++ a ++ " * " ++ b ++ ") + " ++ c ++ ")") ∧
    parsePrintExpr 6 (infixToks a eqTok b ltTok c) =
      .ok ("(" ++ a ++ " == (" ++ b ++ " < " ++ c ++ "))") ∧
    parsePrintExpr 6 (infixToks a plusTok b minusTok c) =
      .ok ("((" ++ a ++ " + " ++ b ++ ") - " ++ c ++ ")") := by
  refine ⟨?_, ?_, ?_, ?_⟩
  · rw [show parsePrintExpr 6 (infixToks a plusTok b asteriskTok c) =
      .ok ("(" ++ a ++ " " ++ "+" ++ " "
        ++ ("(" ++ b ++ " " ++ "*" ++ " " ++ c ++ ")") ++ ")") from rfl]
    refine congrArg Res.ok ?_
    simp only [String.append_assoc]
    rfl
  · rw [show parsePrintExpr 6 (infixToks a asteriskTok b plusTok c) =
      .ok ("(" ++ ("(" ++ a ++ " " ++ "*" ++ " " ++ b ++ ")") ++ " " ++ "+"
        ++ " " ++ c ++ ")") from rfl]
    refine congrArg Res.ok ?_
    simp only [String.append_assoc]
    rfl
  · rw [show parsePrintExpr 6 (infixToks a eqTok b ltTok c) =
      .ok ("(" ++ a ++ " " ++ "==" ++ " "
        ++ ("(" ++ b ++ " " ++ "<" ++ " " ++ c ++ ")") ++ ")") from rfl]
    refine congrArg Res.ok ?_
    simp only [String.append_assoc]
    rfl
  · rw [show parsePrintExpr 6 (infixToks a plusTok b minusTok c) =
      .ok ("(" ++ ("(" ++ a ++ " " ++ "+" ++ " " ++ b ++ ")") ++ " " ++ "-"
        ++ " " ++ c ++ ")") from rfl]
    refine congrArg Res.ok ?_
    simp only [String.append_assoc]
    rfl

/-- C8 (confirmed): lexer two-character lookahead.  `=` lexes as `EQ`
with literal `==` exactly when the next character is `=`, else as
`ASSIGN` with literal `=`; `!` lexes as `NEQ`/`!=` exactly when followed
by `=`, else as `BANG`; and the input `5 == 10; 12 != 9;` yields the
token sequence `INT(5), EQ(==), INT(10), SEMICOLON, INT(12), NEQ(!=),
INT(9), SEMICOLON, EOF`. -/
theorem c8_lexer :
    (∀ (l : Lexer), l.ch = some ('=') →
      (l.peekChar = some ('=') →
        l.matchChar = (some ⟨.EQ, some ("==")⟩, l.readChar)) ∧
      (l.peekChar ≠ some ('=') →
        l.matchChar = (some ⟨.ASSIGN, some ("=")⟩, l))) ∧
    (∀ (l : Lexer), l.ch = some ('!') →
      (l.peekChar = some ('=') →
        l.matchChar = (some ⟨.NEQ, some ("!=")⟩, l.readChar)) ∧
      (l.peekChar ≠ some ('=') →
        l.matchChar = (some ⟨.BANG, some ("!")⟩, l))) ∧
    lexTokens 64 (Lexer.new lexerScenarioInput) = .ok lexerScenarioTokens := by
  refine ⟨?_, ?_, ?_⟩
  · intro l h
    obtain ⟨input, pos, rp, chv⟩ := l
    simp only [Lexer.ch] at h
    subst h
    have key : Lexer.matchChar ⟨input, pos, rp, some ('=')⟩ =
        (match (⟨input, pos, rp, some ('=')⟩ : Lexer).peekChar with
         | none =>
             (some ⟨.ASSIGN, some ("=")⟩, (⟨input, pos, rp, some ('=')⟩ : Lexer))
         | some c =>
             if c == ('=') then
               (some ⟨.EQ, some ("==")⟩,
                 Lexer.readChar ⟨input, pos, rp, some ('=')⟩)
             else
               (some ⟨.ASSIGN, some ("=")⟩,
                 (⟨input, pos, rp, some ('=')⟩ : Lexer))) := rfl
    constructor
    · intro hp
      rw [key, hp]
      rfl
    · intro hp
      rcases hpc : (⟨input, pos, rp, some ('=')⟩ : Lexer).peekChar with _ | ch
      · rw [key, hpc]
      · have hch : (ch == ('=')) = false := by
          simp only [beq_eq_false_iff_ne, ne_eq]
          intro e
          exact hp (by rw [hpc, e])
        rw [key, hpc]
        simp only [hch, Bool.false_eq_true, if_false]
  · intro l h
    obtain ⟨input, pos, rp, chv⟩ := l
    simp only [Lexer.ch] at h
    subst h
    have key : Lexer.matchChar ⟨input, pos, rp, some ('!')⟩ =
        (match (⟨input, pos, rp, some ('!')⟩ : Lexer).peekChar with
         | none =>
             (some ⟨.BANG, some ("!")⟩, (⟨input, pos, rp, some ('!')⟩ : Lexer))
         | some c =>
             if c == ('=') then
               (some ⟨.NEQ, some ("!=")⟩,
                 Lexer.readChar ⟨input, pos, rp, some ('!')⟩)
             else
               (some ⟨.BANG, some ("!")⟩,
                 (⟨input, pos, rp, some ('!')⟩ : Lexer))) := rfl
    constructor
    · intro hp
      rw [key, hp]
      rfl
    · intro hp
      rcases hpc : (⟨input, pos, rp, some ('!')⟩ : Lexer).peekChar with _ | ch
      · rw [key, hpc]
      · have hch : (ch == ('=')) = false := by
          simp only [beq_eq_false_iff_ne, ne_eq]
          intro e
          exact hp (by rw [hpc, e])
        rw [key, hpc]
        simp only [hch, Bool.false_eq_true, if_false]
  · rfl

/-- C8, witness: a lexer state sitting on `=` with another `=` ahead
produces the `EQ`/`==` token. -/
theorem c8_witness :
    (Lexer.mk [('='), ('=')] 0 1 (some ('='))).ch = some ('=') ∧
    (Lexer.mk [('='), ('=')] 0 1 (some ('='))).peekChar = some ('=') ∧
    (Lexer.mk [('='), ('=')] 0 1 (some ('='))).matchChar =
      (some ⟨.EQ, some ("==")⟩, (Lexer.mk [('='), ('=')] 0 1 (some ('='))).readChar) :=
  ⟨rfl, rfl, (c8_lexer.1 (Lexer.mk [('='), ('=')] 0 1 (some ('='))) rfl).1 rfl⟩
